import Mathlib

/-!
Verification of the `TNGDSearch` retrieval tool
(`api/app/clients/tools/TNGDSearch.js`).

The tool is a thin orchestration of two external services: an Azure OpenAI
embedding endpoint and a Pinecone vector index.  We embed the tool's own
JavaScript code shallowly:

* the two external services are parameters (functions returning
  `Except String _`, where `Except.error` models a thrown/rejected error);
* JavaScript `undefined`/optional values are `Option`;
* JavaScript `a || b` on configuration strings is `jsOr` (empty string and
  `undefined` are falsy);
* the numeric entries of embedding vectors are opaque to this code (it never
  inspects them), so they are modelled by `Int`;
* a thrown error that escapes a function is `Except.error`; the external
  client-handle constructors (`OpenAIClient`, `AzureKeyCredential`,
  `Pinecone`) are modelled as pure field storage that performs no network
  call and does not throw, per the library contract assumed by the source.

`_call` additionally returns the trace of external service calls it issued,
so that "no network call is attempted" and "exactly one vector query" are
expressible.
-/

namespace TNGD

/-- Embedding-vector entries.  The tool never inspects the numbers it
receives from the embedding service; they are forwarded verbatim to the
vector index, so an opaque carrier type suffices. -/
abbrev EmbVal := Int

/-- One record of the embedding service's response (`data.data[i]`). -/
structure EmbeddingRecord where
  embedding : List EmbVal
deriving Repr, DecidableEq

/-- The embedding service's response object (`data` with its `data` array). -/
structure EmbeddingsResponse where
  data : List EmbeddingRecord
deriving Repr, DecidableEq

/-- Metadata of a Pinecone match.  The fields are optional: the source reads
`result.metadata.page_title` / `result.metadata.content`, which in JS
evaluates to `undefined` when the field is missing. -/
structure MatchMetadata where
  page_title : Option String
  content : Option String
deriving Repr, DecidableEq

/-- One match returned by the vector index. -/
structure SearchMatch where
  metadata : MatchMetadata
deriving Repr, DecidableEq

/-- The vector index's query response (`results` with its `matches` array). -/
structure QueryResults where
  «matches» : List SearchMatch
deriving Repr, DecidableEq

/-- The request object passed to `this.index.query({...})`. -/
structure PineconeQuery where
  vector : List EmbVal
  topK : Nat
  includeMetadata : Bool
deriving Repr, DecidableEq

/-- A JavaScript value as far as the zod schema can distinguish it. -/
inductive JsVal where
  | vstr (s : String)
  | vnum (n : Int)
  | vbool (b : Bool)
  | vnull
deriving Repr, DecidableEq

/-- The invocation input object: it may or may not carry a `query` field,
and that field may hold any JS value. -/
structure CallData where
  query : Option JsVal
deriving Repr, DecidableEq

/-- An external service call issued during one invocation of `_call`. -/
inductive CallEvent where
  | embedCall (model : String) (query : String)
  | pineconeCall (q : PineconeQuery)
deriving Repr, DecidableEq

/-! Configuration resolution (constructor). -/

/-- JS truthiness of an optional string: `undefined` and `""` are falsy. -/
def truthy : Option String → Bool
  | some s => !(s == "")
  | none => false

/-- JS `a || b` on optional strings: `a` when truthy, else `b`. -/
def jsOr (a b : Option String) : Option String :=
  if truthy a then a else b

/-- JS `a || d` where the last operand is a (truthy) string literal, as in
the index-name default. -/
def jsOrString (a : Option String) (d : String) : String :=
  match a with
  | some s => if s == "" then d else s
  | none => d

/-- The caller-supplied `fields` object of the constructor. -/
structure ToolFields where
  PINECONE_PROJECT_API_KEY : Option String
  PINECONE_INDEX_NAME : Option String
  AZURE_API_KEY : Option String
  AZURE_HOST : Option String
deriving Repr, DecidableEq

/-- The process environment variables the constructor reads. -/
structure ProcessEnv where
  PINECONE_PROJECT_API_KEY : Option String
  PINECONE_INDEX_NAME : Option String
  AZURE_API_KEY : Option String
  AZURE_HOST : Option String
deriving Repr, DecidableEq

/-- `TNGDSearch.DEFAULT_PINECONE_INDEX`. -/
def DEFAULT_PINECONE_INDEX : String := "large-index"

/-- The configuration state established by a successful construction. -/
structure TNGDSearch where
  pineconeApiKey : Option String
  pineconeIndex : String
  openAIApiKey : Option String
  openAIHost : Option String
deriving Repr, DecidableEq

/-- The constructor: resolves each configuration field with JS `||` from
`fields` then the environment (the index name also has a built-in default),
then checks the two API keys for truthiness and throws on a falsy one.  The
`OpenAIClient`/`Pinecone` handle constructions are modelled as the stored
fields themselves (pure, no throw, no network). -/
def constructor (fields : ToolFields) (env : ProcessEnv) :
    Except String TNGDSearch :=
  let pineconeApiKey :=
    jsOr fields.PINECONE_PROJECT_API_KEY env.PINECONE_PROJECT_API_KEY
  let pineconeIndex :=
    jsOrString (jsOr fields.PINECONE_INDEX_NAME env.PINECONE_INDEX_NAME)
      DEFAULT_PINECONE_INDEX
  let openAIApiKey := jsOr fields.AZURE_API_KEY env.AZURE_API_KEY
  let openAIHost := jsOr fields.AZURE_HOST env.AZURE_HOST
  if !(truthy pineconeApiKey) then
    Except.error "Missing PINECONE_PROJECT_API_KEY environment variable."
  else if !(truthy openAIApiKey) then
    Except.error "Missing OPENAI_API_KEY environment variable."
  else
    Except.ok ⟨pineconeApiKey, pineconeIndex, openAIApiKey, openAIHost⟩

/-! Schema validation and the two operations. -/

/-- `this.schema.parse(data)` for `z.object({ query: z.string() })`:
succeeds exactly when the `query` field is present and holds a string. -/
def zodParse (data : CallData) : Except String String :=
  match data.query with
  | some (JsVal.vstr s) => Except.ok s
  | some _ => Except.error "ZodError: Expected string, received other type"
  | none => Except.error "ZodError: Required"

/-- `queryToEmbeddings`: calls the embedding client with the fixed model
identifier, then reads `data.data[0].embedding`.  An empty `data` array
makes the JS property access throw (`data.data[0]` is `undefined`). -/
def queryToEmbeddings
    (openAIClient : String → String → Except String EmbeddingsResponse)
    (query : String) : Except String (List EmbVal) :=
  match openAIClient "text-embedding-3-large" query with
  | Except.error e => Except.error e
  | Except.ok data =>
    match data.data with
    | [] =>
      Except.error "TypeError: cannot read property of undefined"
    | r :: _ => Except.ok r.embedding

/-- JS template-literal rendering of a possibly-`undefined` string field. -/
def renderJsField : Option String → String
  | some s => s
  | none => "undefined"

/-- The fragment appended per match:
`` `Page Title: ${result.metadata.page_title} Content: ${result.metadata.content} ` ``. -/
def matchFragment (r : SearchMatch) : String :=
  "Page Title: " ++ renderJsField r.metadata.page_title ++ " Content: " ++
    renderJsField r.metadata.content ++ " "

/-- One iteration of the `for (const result of results.matches)` loop:
append the fragment to the accumulator and latch `firstResult`. -/
def loopStep (acc : String × Option SearchMatch) (r : SearchMatch) :
    String × Option SearchMatch :=
  (acc.1 ++ matchFragment r,
    match acc.2 with
    | none => some r
    | some f => some f)

/-- The whole loop, started from `resultString = ''`, `firstResult = null`. -/
def resultLoop (ms : List SearchMatch) : String × Option SearchMatch :=
  ms.foldl loopStep ("", none)

/-- `_call`: validate the input against the zod schema (a validation error
propagates to the caller, before any service call), then inside the `try`
block obtain the embedding, issue one vector query with `topK: 3` and
`includeMetadata: true`, and format the matches; any error thrown inside
the `try` is converted to the fixed sentinel string.  The second component
is the trace of external service calls issued. -/
def _call (data : CallData)
    (embedService : String → String → Except String EmbeddingsResponse)
    (pineconeService : PineconeQuery → Except String QueryResults) :
    Except String String × List CallEvent :=
  match zodParse data with
  | Except.error e => (Except.error e, [])
  | Except.ok query =>
    match queryToEmbeddings embedService query with
    | Except.error _ =>
      (Except.ok "There was an error with the Pinecone search.",
        [CallEvent.embedCall "text-embedding-3-large" query])
    | Except.ok embeddings =>
      let req : PineconeQuery := ⟨embeddings, 3, true⟩
      match pineconeService req with
      | Except.error _ =>
        (Except.ok "There was an error with the Pinecone search.",
          [CallEvent.embedCall "text-embedding-3-large" query,
            CallEvent.pineconeCall req])
      | Except.ok results =>
        let st := resultLoop results.«matches»
        let out :=
          match st.2 with
          | none => "No results found for the query."
          | some _ => st.1
        (Except.ok out,
          [CallEvent.embedCall "text-embedding-3-large" query,
            CallEvent.pineconeCall req])

/-! Derived notions used by the claims. -/

/-- The concatenation, in received order, of the per-match fragments. -/
def fragString : List SearchMatch → String
  | [] => ""
  | r :: rest => matchFragment r ++ fragString rest

/-- The vector-index requests contained in a call trace. -/
def pineconeRequests (evs : List CallEvent) : List PineconeQuery :=
  evs.filterMap fun e =>
    match e with
    | CallEvent.pineconeCall q => some q
    | _ => none

/-! Spec-side resolution rule (for the amended claim C7): a configuration
value counts as present only when it is a non-empty string, mirroring JS
falsiness of `""` and `undefined`. -/

/-- A configuration value, normalised so that a supplied-but-empty string
counts as absent. -/
def presentNonEmpty : Option String → Option String
  | some s => if s == "" then none else some s
  | none => none

/-- The resolution rule as the amended claim C7 states it: the explicit
override when supplied and non-empty, otherwise the environment variable
when set and non-empty, otherwise the built-in default. -/
def resolveAmended (override envVar dflt : Option String) : Option String :=
  match presentNonEmpty override with
  | some s => some s
  | none =>
    match presentNonEmpty envVar with
    | some s => some s
    | none => dflt

/-! Concrete external-service stubs, used by the witnesses.  `embedOk`
answers every embedding request with one two-entry vector; the `pinecone*`
stubs answer every vector query with a fixed match list or a rejection. -/

/-- Embedding service that succeeds with a single record. -/
def embedOk : String → String → Except String EmbeddingsResponse :=
  fun _ _ => Except.ok ⟨[⟨[1, 2]⟩]⟩

/-- Embedding service whose request is rejected. -/
def embedFail : String → String → Except String EmbeddingsResponse :=
  fun _ _ => Except.error "ECONNREFUSED"

/-- Vector index returning two matches with full metadata. -/
def pineconeTwo : PineconeQuery → Except String QueryResults :=
  fun _ => Except.ok ⟨[⟨⟨some "Paris", some "Paris is the capital."⟩⟩,
    ⟨⟨some "France", some "France is a country."⟩⟩]⟩

/-- Vector index returning zero matches. -/
def pineconeEmpty : PineconeQuery → Except String QueryResults :=
  fun _ => Except.ok ⟨[]⟩

/-- Vector index returning two matches, each missing one metadata field. -/
def pineconeNoMeta : PineconeQuery → Except String QueryResults :=
  fun _ => Except.ok ⟨[⟨⟨none, some "Paris is the capital."⟩⟩,
    ⟨⟨some "France", none⟩⟩]⟩

/-! Helper lemmas about the formatting loop. -/

/-- Once `firstResult` is latched, the loop only appends fragments. -/
theorem foldl_loopStep (ms : List SearchMatch) (s : String) (f : SearchMatch) :
    List.foldl loopStep (s, some f) ms = (s ++ fragString ms, some f) := by
  induction ms generalizing s with
  | nil => simp [fragString]
  | cons r rest ih =>
    simp only [List.foldl_cons, loopStep, fragString]
    rw [ih, String.append_assoc]

/-- The loop accumulates exactly the in-order fragment concatenation, and
`firstResult` ends up as the head of the match list. -/
theorem resultLoop_eq (ms : List SearchMatch) :
    resultLoop ms = (fragString ms, ms.head?) := by
  cases ms with
  | nil => simp [resultLoop, fragString]
  | cons r rest =>
    simp only [resultLoop, List.foldl_cons, loopStep]
    rw [foldl_loopStep]
    simp [fragString]

/-- A string starting with the fragment label is never the error sentinel. -/
theorem pageTitle_ne_error (t : String) :
    "Page Title: " ++ t ≠ "There was an error with the Pinecone search." := by
  intro h
  have h2 := congrArg String.data h
  rw [String.data_append] at h2
  simp at h2

/-- `presentNonEmpty` turns JS `||` into the amended resolution rule. -/
theorem presentNonEmpty_jsOr (a b : Option String) :
    presentNonEmpty (jsOr a b) = resolveAmended a b none := by
  cases a with
  | none =>
    cases b with
    | none => simp [jsOr, truthy, presentNonEmpty, resolveAmended]
    | some t =>
      by_cases ht : t = "" <;>
        simp [jsOr, truthy, presentNonEmpty, resolveAmended, ht]
  | some s =>
    by_cases hs : s = ""
    · subst hs
      cases b with
      | none => simp [jsOr, truthy, presentNonEmpty, resolveAmended]
      | some t =>
        by_cases ht : t = "" <;>
          simp [jsOr, truthy, presentNonEmpty, resolveAmended, ht]
    · simp [jsOr, truthy, presentNonEmpty, resolveAmended, hs]

/-- A truthy value is already in normal form. -/
theorem truthy_presentNonEmpty (o : Option String) (h : truthy o = true) :
    presentNonEmpty o = o := by
  cases o with
  | none => simp [truthy] at h
  | some s =>
    simp [truthy] at h
    simp [presentNonEmpty, h]

/-- The defaulted index-name resolution also matches the amended rule. -/
theorem jsOrString_resolveAmended (a b : Option String) (d : String) :
    some (jsOrString (jsOr a b) d) = resolveAmended a b (some d) := by
  cases a with
  | none =>
    cases b with
    | none => simp [jsOr, truthy, jsOrString, presentNonEmpty, resolveAmended]
    | some t =>
      by_cases ht : t = "" <;>
        simp [jsOr, truthy, jsOrString, presentNonEmpty, resolveAmended, ht]
  | some s =>
    by_cases hs : s = ""
    · subst hs
      cases b with
      | none => simp [jsOr, truthy, jsOrString, presentNonEmpty, resolveAmended]
      | some t =>
        by_cases ht : t = "" <;>
          simp [jsOr, truthy, jsOrString, presentNonEmpty, resolveAmended, ht]
    · simp [jsOr, truthy, jsOrString, presentNonEmpty, resolveAmended, hs]

end TNGD

namespace TNGD

/-! Claim C1. -/

/-- Claim C1: for every invocation of `_call` whose vector-database query
returns a non-empty list of matches, the result is exactly the
concatenation, in the order the matches were received, of the fragments
`"Page Title: {title} Content: {content} "` (each with a trailing space),
with no re-ranking and no other text. -/
theorem c1_concatenation (d : CallData)
    (e : String → String → Except String EmbeddingsResponse)
    (p : PineconeQuery → Except String QueryResults)
    (q : String) (v : List EmbVal) (ms : List SearchMatch)
    (hq : zodParse d = Except.ok q)
    (hv : queryToEmbeddings e q = Except.ok v)
    (hp : p ⟨v, 3, true⟩ = Except.ok ⟨ms⟩)
    (hne : ms ≠ []) :
    (_call d e p).1 = Except.ok (fragString ms) := by
  simp only [_call, hq, hv, hp, resultLoop_eq]
  cases ms with
  | nil => exact absurd rfl hne
  | cons m rest => simp

/-- Witness for C1: the spec's concrete Paris/France scenario. -/
theorem c1_witness :
    (_call ⟨some (JsVal.vstr "capital of France")⟩ embedOk pineconeTwo).1 =
      Except.ok ("Page Title: Paris Content: Paris is the capital. " ++
        "Page Title: France Content: France is a country. ") := by
  have h := c1_concatenation ⟨some (JsVal.vstr "capital of France")⟩ embedOk
    pineconeTwo "capital of France" [1, 2]
    [⟨⟨some "Paris", some "Paris is the capital."⟩⟩,
      ⟨⟨some "France", some "France is a country."⟩⟩]
    rfl rfl rfl (by decide)
  exact h.trans (congrArg Except.ok (by decide))

/-! Claim C2. -/

/-- Claim C2: whenever the embedding call or the vector-search call raises
an error, `_call` returns exactly the literal string
`"There was an error with the Pinecone search."` and does not raise past
its own boundary (the result is `Except.ok`). -/
theorem c2_error_sentinel (d : CallData)
    (e : String → String → Except String EmbeddingsResponse)
    (p : PineconeQuery → Except String QueryResults)
    (q : String)
    (hq : zodParse d = Except.ok q)
    (h : (∃ m, e "text-embedding-3-large" q = Except.error m) ∨
      (∃ v m, queryToEmbeddings e q = Except.ok v ∧
        p ⟨v, 3, true⟩ = Except.error m)) :
    (_call d e p).1 = Except.ok "There was an error with the Pinecone search." := by
  rcases h with ⟨m, hm⟩ | ⟨v, m, hv, hm⟩
  · have hqe : queryToEmbeddings e q = Except.error m := by
      simp [queryToEmbeddings, hm]
    simp [_call, hq, hqe]
  · simp [_call, hq, hv, hm]

/-- Witness for C2: a rejected embedding request yields the sentinel. -/
theorem c2_witness :
    (_call ⟨some (JsVal.vstr "capital of France")⟩ embedFail pineconeTwo).1 =
      Except.ok "There was an error with the Pinecone search." :=
  c2_error_sentinel ⟨some (JsVal.vstr "capital of France")⟩ embedFail pineconeTwo
    "capital of France" rfl (Or.inl ⟨"ECONNREFUSED", rfl⟩)

/-! Claim C3. -/

/-- Claim C3: whenever the vector-database query returns zero matches,
`_call` returns exactly the literal string
`"No results found for the query."`. -/
theorem c3_no_results (d : CallData)
    (e : String → String → Except String EmbeddingsResponse)
    (p : PineconeQuery → Except String QueryResults)
    (q : String) (v : List EmbVal)
    (hq : zodParse d = Except.ok q)
    (hv : queryToEmbeddings e q = Except.ok v)
    (hp : p ⟨v, 3, true⟩ = Except.ok ⟨[]⟩) :
    (_call d e p).1 = Except.ok "No results found for the query." := by
  simp [_call, hq, hv, hp, resultLoop_eq]

/-- Witness for C3: an empty match list yields the no-results sentinel. -/
theorem c3_witness :
    (_call ⟨some (JsVal.vstr "capital of France")⟩ embedOk pineconeEmpty).1 =
      Except.ok "No results found for the query." :=
  c3_no_results ⟨some (JsVal.vstr "capital of France")⟩ embedOk pineconeEmpty
    "capital of France" [1, 2] rfl rfl rfl

/-! Claim C4. -/

/-- Claim C4: for every invocation whose input object has a missing `query`
field or a non-string `query` field, a validation error is raised to the
caller (the result is `Except.error`, not a sentinel string) and no call to
the embedding service or the vector-database service is attempted (the call
trace is empty). -/
theorem c4_validation_error (d : CallData)
    (e : String → String → Except String EmbeddingsResponse)
    (p : PineconeQuery → Except String QueryResults)
    (h : ∀ s, d.query ≠ some (JsVal.vstr s)) :
    (∃ m, (_call d e p).1 = Except.error m) ∧ (_call d e p).2 = [] := by
  obtain ⟨oq⟩ := d
  cases oq with
  | none => exact ⟨⟨"ZodError: Required", rfl⟩, rfl⟩
  | some v =>
    cases v with
    | vstr s => exact absurd rfl (h s)
    | vnum n => exact ⟨⟨"ZodError: Expected string, received other type", rfl⟩, rfl⟩
    | vbool b => exact ⟨⟨"ZodError: Expected string, received other type", rfl⟩, rfl⟩
    | vnull => exact ⟨⟨"ZodError: Expected string, received other type", rfl⟩, rfl⟩

/-- Witness for C4: an input without a `query` field raises and issues no
service call. -/
theorem c4_witness :
    (∃ m, (_call ⟨none⟩ embedOk pineconeTwo).1 = Except.error m) ∧
      (_call ⟨none⟩ embedOk pineconeTwo).2 = [] :=
  c4_validation_error ⟨none⟩ embedOk pineconeTwo (fun s h => by simp at h)

/-! Claim C5 (corrected): the zod schema is `z.string()` with no
non-emptiness refinement, so the empty string passes validation and the
embedding call is reached. -/

/-- Counterexample to claim C5: the invocation whose `query` field is the
empty string passes schema validation (`zodParse` succeeds) and does reach
the embedding call (the call trace contains the embedding request). -/
theorem c5_counterexample :
    zodParse ⟨some (JsVal.vstr "")⟩ = Except.ok "" ∧
    (_call ⟨some (JsVal.vstr "")⟩ embedOk pineconeEmpty).2 =
      [CallEvent.embedCall "text-embedding-3-large" "",
        CallEvent.pineconeCall ⟨[1, 2], 3, true⟩] :=
  ⟨rfl, rfl⟩

/-- Claim C5 as amended: the schema validation performed before the
embedding step ensures only that the query is a string; every string value
(the empty string included) passes validation and proceeds to the embedding
call. -/
theorem c5_amended_schema_string_only (s : String)
    (e : String → String → Except String EmbeddingsResponse)
    (p : PineconeQuery → Except String QueryResults) :
    zodParse ⟨some (JsVal.vstr s)⟩ = Except.ok s ∧
    (_call ⟨some (JsVal.vstr s)⟩ e p).2.head? =
      some (CallEvent.embedCall "text-embedding-3-large" s) := by
  have hq : zodParse ⟨some (JsVal.vstr s)⟩ = Except.ok s := rfl
  refine ⟨hq, ?_⟩
  cases hqe : queryToEmbeddings e s with
  | error m => simp [_call, hq, hqe]
  | ok v =>
    cases hp : p ⟨v, 3, true⟩ with
    | error m => simp [_call, hq, hqe, hp]
    | ok res => simp [_call, hq, hqe, hp]

/-! Claim C6. -/

/-- Claim C6: when the vector-database API key resolves to absent (no
override field and no environment variable), or the embedding-service API
key resolves to absent, construction fails with a configuration error and
no tool value is produced. -/
theorem c6_missing_key_fails (fields : ToolFields) (env : ProcessEnv)
    (h : (fields.PINECONE_PROJECT_API_KEY = none ∧
        env.PINECONE_PROJECT_API_KEY = none) ∨
      (fields.AZURE_API_KEY = none ∧ env.AZURE_API_KEY = none)) :
    ∃ m, constructor fields env = Except.error m := by
  rcases h with ⟨hf, he⟩ | ⟨hf, he⟩
  · exact ⟨"Missing PINECONE_PROJECT_API_KEY environment variable.",
      by simp [constructor, hf, he, jsOr, truthy]⟩
  · by_cases hp :
      truthy (jsOr fields.PINECONE_PROJECT_API_KEY env.PINECONE_PROJECT_API_KEY) = true
    · have hA : truthy (jsOr fields.AZURE_API_KEY env.AZURE_API_KEY) = false := by
        simp [hf, he, jsOr, truthy]
      exact ⟨"Missing OPENAI_API_KEY environment variable.",
        by simp [constructor, hp, hA]⟩
    · exact ⟨"Missing PINECONE_PROJECT_API_KEY environment variable.",
        by simp [constructor, hp]⟩

/-- Witness for C6: construction with no configuration at all fails. -/
theorem c6_witness :
    ∃ m, constructor ⟨none, none, none, none⟩ ⟨none, none, none, none⟩ =
      Except.error m :=
  c6_missing_key_fails ⟨none, none, none, none⟩ ⟨none, none, none, none⟩
    (Or.inl ⟨rfl, rfl⟩)

/-! Claim C7 (corrected): JS `||` treats a supplied empty string as absent,
so an explicit empty-string override is skipped in favour of the
environment value (or the default). -/

/-- Counterexample to claim C7: an explicit override `""` is supplied for
the index name, yet the resolved value is the environment variable's value
`"env-index"`, not the override. -/
theorem c7_counterexample :
    constructor ⟨some "pk", some "", some "ak", none⟩
        ⟨none, some "env-index", none, none⟩ =
      Except.ok ⟨some "pk", "env-index", some "ak", none⟩ ∧
    ("env-index" : String) ≠ "" :=
  ⟨rfl, by decide⟩

/-- Claim C7 as amended: for every successful construction, each resolved
configuration field is the explicit override when one is supplied and
non-empty, otherwise the process environment variable when set and
non-empty, otherwise the built-in default for the index name only (the
other three fields have no default); a supplied-but-empty string counts as
absent, and an absent host resolves to an absent value. -/
theorem c7_amended_resolution (fields : ToolFields) (env : ProcessEnv)
    (t : TNGDSearch) (h : constructor fields env = Except.ok t) :
    t.pineconeApiKey =
      resolveAmended fields.PINECONE_PROJECT_API_KEY env.PINECONE_PROJECT_API_KEY
        none ∧
    some t.pineconeIndex =
      resolveAmended fields.PINECONE_INDEX_NAME env.PINECONE_INDEX_NAME
        (some DEFAULT_PINECONE_INDEX) ∧
    t.openAIApiKey =
      resolveAmended fields.AZURE_API_KEY env.AZURE_API_KEY none ∧
    presentNonEmpty t.openAIHost =
      resolveAmended fields.AZURE_HOST env.AZURE_HOST none := by
  simp only [constructor] at h
  split at h
  · exact absurd h (by simp)
  · split at h
    · exact absurd h (by simp)
    · rename_i h1 h2
      injection h with h3
      subst h3
      simp only [Bool.not_eq_true', Bool.not_eq_false] at h1 h2
      refine ⟨?_, jsOrString_resolveAmended _ _ _, ?_, presentNonEmpty_jsOr _ _⟩
      · rw [← presentNonEmpty_jsOr, truthy_presentNonEmpty _ h1]
      · rw [← presentNonEmpty_jsOr, truthy_presentNonEmpty _ h2]

/-- Witness for the amended C7, at the counterexample's configuration. -/
theorem c7_amended_witness :
    (constructor ⟨some "pk", some "", some "ak", none⟩
        ⟨none, some "env-index", none, none⟩ =
      Except.ok ⟨some "pk", "env-index", some "ak", none⟩) ∧
    (some "pk" : Option String) = resolveAmended (some "pk") none none ∧
    (some "env-index" : Option String) =
      resolveAmended (some "") (some "env-index") (some DEFAULT_PINECONE_INDEX) ∧
    (some "ak" : Option String) = resolveAmended (some "ak") none none ∧
    presentNonEmpty none = resolveAmended none none none := by
  have h := c7_amended_resolution ⟨some "pk", some "", some "ak", none⟩
    ⟨none, some "env-index", none, none⟩ ⟨some "pk", "env-index", some "ak", none⟩ rfl
  exact ⟨rfl, h.1, h.2.1, h.2.2.1, h.2.2.2⟩

/-! Claim C8. -/

/-- Claim C8: `queryToEmbeddings` returns the first embedding vector of the
embedding service's response, and `_call` issues exactly one vector-database
query, using that vector, requesting 3 nearest matches with the
include-metadata flag set to true. -/
theorem c8_first_vector_one_query (d : CallData)
    (e : String → String → Except String EmbeddingsResponse)
    (p : PineconeQuery → Except String QueryResults)
    (q : String) (r : EmbeddingRecord) (rest : List EmbeddingRecord)
    (hq : zodParse d = Except.ok q)
    (he : e "text-embedding-3-large" q = Except.ok ⟨r :: rest⟩) :
    queryToEmbeddings e q = Except.ok r.embedding ∧
    pineconeRequests (_call d e p).2 = [⟨r.embedding, 3, true⟩] := by
  have hv : queryToEmbeddings e q = Except.ok r.embedding := by
    simp [queryToEmbeddings, he]
  refine ⟨hv, ?_⟩
  cases hp : p ⟨r.embedding, 3, true⟩ with
  | error m => simp [_call, hq, hv, hp, pineconeRequests]
  | ok res => simp [_call, hq, hv, hp, pineconeRequests]

/-- Witness for C8 at a concrete single-record embedding response. -/
theorem c8_witness :
    queryToEmbeddings embedOk "capital of France" = Except.ok [1, 2] ∧
    pineconeRequests
        (_call ⟨some (JsVal.vstr "capital of France")⟩ embedOk pineconeTwo).2 =
      [⟨[1, 2], 3, true⟩] :=
  c8_first_vector_one_query ⟨some (JsVal.vstr "capital of France")⟩ embedOk
    pineconeTwo "capital of France" ⟨[1, 2]⟩ [] rfl rfl

/-! Claim C9. -/

/-- Claim C9: when a returned match's metadata lacks `page_title` or
`content`, `_call` does not return the error sentinel: it still returns the
concatenated result string, and a missing field is rendered as the literal
text `undefined` in that match's fragment. -/
theorem c9_missing_metadata_undefined (d : CallData)
    (e : String → String → Except String EmbeddingsResponse)
    (p : PineconeQuery → Except String QueryResults)
    (q : String) (v : List EmbVal) (m : SearchMatch) (rest : List SearchMatch)
    (hq : zodParse d = Except.ok q)
    (hv : queryToEmbeddings e q = Except.ok v)
    (hp : p ⟨v, 3, true⟩ = Except.ok ⟨m :: rest⟩) :
    (_call d e p).1 = Except.ok (fragString (m :: rest)) ∧
    (_call d e p).1 ≠ Except.ok "There was an error with the Pinecone search." ∧
    (∀ c, matchFragment ⟨⟨none, some c⟩⟩ =
      "Page Title: undefined Content: " ++ c ++ " ") ∧
    (∀ ti, matchFragment ⟨⟨some ti, none⟩⟩ =
      "Page Title: " ++ ti ++ " Content: undefined ") ∧
    matchFragment ⟨⟨none, none⟩⟩ =
      "Page Title: undefined Content: undefined " := by
  have h1 : (_call d e p).1 = Except.ok (fragString (m :: rest)) := by
    simp only [_call, hq, hv, hp, resultLoop_eq]
    simp
  have hfrag : ∃ t, fragString (m :: rest) = "Page Title: " ++ t := by
    refine ⟨renderJsField m.metadata.page_title ++ (" Content: " ++
      (renderJsField m.metadata.content ++ (" " ++ fragString rest))), ?_⟩
    simp [fragString, matchFragment, String.append_assoc]
  refine ⟨h1, ?_, ?_, ?_, ?_⟩
  · obtain ⟨t, ht⟩ := hfrag
    rw [h1, ht]
    intro hcontra
    injection hcontra with h2
    exact pageTitle_ne_error t h2
  · intro c
    have hlit : ("Page Title: undefined Content: " : String) =
        "Page Title: " ++ "undefined" ++ " Content: " := by decide
    rw [hlit]
    simp [matchFragment, renderJsField, String.append_assoc]
  · intro ti
    have hlit : (" Content: undefined " : String) =
        " Content: " ++ "undefined" ++ " " := by decide
    rw [hlit]
    simp [matchFragment, renderJsField, String.append_assoc]
  · decide

/-- Witness for C9: two matches, each missing one metadata field, still
produce the concatenated string with `undefined` in place. -/
theorem c9_witness :
    (_call ⟨some (JsVal.vstr "capital of France")⟩ embedOk pineconeNoMeta).1 =
      Except.ok ("Page Title: undefined Content: Paris is the capital. " ++
        "Page Title: France Content: undefined ") := by
  have h := c9_missing_metadata_undefined ⟨some (JsVal.vstr "capital of France")⟩
    embedOk pineconeNoMeta "capital of France" [1, 2]
    ⟨⟨none, some "Paris is the capital."⟩⟩ [⟨⟨some "France", none⟩⟩]
    rfl rfl rfl
  exact h.1.trans (congrArg Except.ok (by decide))

/-! Claim C10. -/

/-- Claim C10: the absence of the embedding-service host (no override field
and no environment variable) never by itself makes construction fail: with
both API keys resolving truthy and the host entirely absent, construction
succeeds and stores an absent host — no check on the host value is
performed. -/
theorem c10_no_host_check (fields : ToolFields) (env : ProcessEnv)
    (hf : fields.AZURE_HOST = none) (he : env.AZURE_HOST = none)
    (hP : truthy (jsOr fields.PINECONE_PROJECT_API_KEY
      env.PINECONE_PROJECT_API_KEY) = true)
    (hA : truthy (jsOr fields.AZURE_API_KEY env.AZURE_API_KEY) = true) :
    ∃ t, constructor fields env = Except.ok t ∧ t.openAIHost = none := by
  refine ⟨⟨jsOr fields.PINECONE_PROJECT_API_KEY env.PINECONE_PROJECT_API_KEY,
    jsOrString (jsOr fields.PINECONE_INDEX_NAME env.PINECONE_INDEX_NAME)
      DEFAULT_PINECONE_INDEX,
    jsOr fields.AZURE_API_KEY env.AZURE_API_KEY, none⟩, ?_, rfl⟩
  have hh : jsOr fields.AZURE_HOST env.AZURE_HOST = none := by
    simp [hf, he, jsOr, truthy]
  simp [constructor, hP, hA, hh]

/-- Witness for C10: keys present, host absent everywhere, construction
succeeds. -/
theorem c10_witness :
    ∃ t, constructor ⟨some "pk", none, some "ak", none⟩ ⟨none, none, none, none⟩ =
      Except.ok t ∧ t.openAIHost = none :=
  c10_no_host_check ⟨some "pk", none, some "ak", none⟩ ⟨none, none, none, none⟩
    rfl rfl (by decide) (by decide)

end TNGD
